import Mathlib

/-!
Verification development for the gafTeddy animatronic core.

Shallow embedding of the Python sources under `src/`:
`servo_controller.py`, `blink_controller.py`, `speech_detector.py`,
`state_machine.py`.  Python floats are modelled as exact rationals
(`ℚ`) except where the source applies transcendental functions
(`math.cos`, `math.sqrt`), which are modelled over `ℝ`.
Timestamps (`time.time()`) are rationals.
-/

namespace GafTeddy

/-- Python `int()` applied to a numeric value: truncation toward zero. -/
def pyInt {α : Type} [LinearOrderedField α] [FloorRing α] (x : α) : ℤ :=
  if 0 ≤ x then ⌊x⌋ else ⌈x⌉

/-- Python 3 `round()` to an integer: rounds half to even, otherwise to the
nearest integer. -/
def pyRound {α : Type} [LinearOrderedField α] [FloorRing α] (x : α) : ℤ :=
  if Int.fract x = 1/2 then (if Even ⌊x⌋ then ⌊x⌋ else ⌊x⌋ + 1) else round x

lemma floor_le_pyRound {α : Type} [LinearOrderedField α] [FloorRing α] (x : α) :
    ⌊x⌋ ≤ pyRound x := by
  unfold pyRound
  split_ifs with h1 h2
  · exact le_refl _
  · exact le_of_lt (lt_add_one _)
  · rw [round_eq]
    exact Int.floor_le_floor (by linarith [show (0:α) < 1/2 by norm_num])

lemma pyRound_le_ceil {α : Type} [LinearOrderedField α] [FloorRing α] (x : α) :
    pyRound x ≤ ⌈x⌉ := by
  unfold pyRound
  split_ifs with h1 h2
  · exact Int.floor_le_ceil x
  · have hx : (⌊x⌋ : α) < x := by
      have hfl := Int.floor_add_fract x
      rw [h1] at hfl
      nlinarith [hfl]
    have h2 : ⌊x⌋ + 1 ≤ ⌈x⌉ := by
      have := Int.lt_ceil.mpr hx
      omega
    exact h2
  · rw [round_eq]
    have h3 : ⌊x + 1/2⌋ < ⌈x⌉ + 1 := by
      apply Int.floor_lt.mpr
      push_cast
      linarith [Int.le_ceil x]
    omega

lemma pyRound_intCast {α : Type} [LinearOrderedField α] [FloorRing α] (n : ℤ) :
    pyRound (n : α) = n := by
  unfold pyRound
  rw [Int.fract_intCast]
  have h : (0 : α) ≠ 1/2 := by norm_num
  rw [if_neg h, round_intCast]

/-- An integer-valued quantity computed by Python `round()` from a value lying
between two integer bounds stays between the bounds. -/
lemma pyRound_mem {α : Type} [LinearOrderedField α] [FloorRing α]
    (a b : ℤ) (x : α) (h1 : (a : α) ≤ x) (h2 : x ≤ (b : α)) :
    a ≤ pyRound x ∧ pyRound x ≤ b :=
  ⟨le_trans (Int.le_floor.mpr h1) (floor_le_pyRound x),
   le_trans (pyRound_le_ceil x) (Int.ceil_le.mpr h2)⟩

/-! ## Servo engine (`servo_controller.py`) -/

/-- Eased-move record installed by `set_target_angle` when a positive duration
is given (`_move_start_angle`, `_move_target_angle`, `_move_start_ts`,
`_move_duration`). -/
structure EasedMove where
  start_angle : ℤ
  target_angle : ℤ
  start_ts : ℚ
  duration : ℚ
deriving DecidableEq

/-- Abstract handle for a `threading.Thread`: we track only liveness. -/
structure ThreadHandle where
  alive : Bool
deriving DecidableEq

/-- State of one `ServoController` object.  `move = none` models
`_move_duration is None` (paired with `_move_start_ts is None`). -/
structure Servo where
  pin : ℤ
  min_angle : ℤ
  max_angle : ℤ
  angle : ℤ
  target : ℤ
  pulse_min_ms : ℚ
  pulse_max_ms : ℚ
  max_speed : ℚ
  move : Option EasedMove
  stop_event : Bool
  thread : Option ThreadHandle
deriving DecidableEq

namespace ServoController

/-- `ServoController.__init__`: angle and target start at `int(neutral)`;
no `neutral` attribute is stored; no thread is started. -/
def init (pin min_angle max_angle neutral : ℤ)
    (pulse_min_ms pulse_max_ms max_speed_deg_per_s : ℚ) : Servo :=
  { pin := pin
    min_angle := min_angle
    max_angle := max_angle
    angle := neutral
    target := neutral
    pulse_min_ms := pulse_min_ms
    pulse_max_ms := pulse_max_ms
    max_speed := max_speed_deg_per_s
    move := none
    stop_event := false
    thread := none }

/-- `ServoController.start`: returns unchanged iff a live thread exists,
otherwise clears the stop event and launches a fresh worker. -/
def start (s : Servo) : Servo :=
  match s.thread with
  | some t =>
      if t.alive then s
      else { s with stop_event := false, thread := some ⟨true⟩ }
  | none => { s with stop_event := false, thread := some ⟨true⟩ }

/-- `ServoController.stop`: sets the stop event, joins, and clears the stored
thread handle (`self._thread = None`). -/
def stop (s : Servo) : Servo :=
  { s with stop_event := true, thread := none }

/-- The fraction `(angle - min_angle) / max(1.0, max_angle - min_angle)`
from `_angle_to_pulse`. -/
def fracOf (s : Servo) (a : ℤ) : ℚ :=
  ((a - s.min_angle : ℤ) : ℚ) / max 1 ((s.max_angle - s.min_angle : ℤ) : ℚ)

/-- The value `ms * 1000` computed inside `_angle_to_pulse`, before `int()`. -/
def pulseVal (s : Servo) (a : ℤ) : ℚ :=
  (s.pulse_min_ms + fracOf s a * (s.pulse_max_ms - s.pulse_min_ms)) * 1000

/-- `ServoController._angle_to_pulse`: `int(ms * 1000)`. -/
def angleToPulse (s : Servo) (a : ℤ) : ℤ :=
  pyInt (pulseVal s a)

/-- `ServoController.set_target_angle(angle, duration_s)`: clamps, installs an
eased move when `duration_s and duration_s > 0.0`, else clears the move and
engages velocity-limited tracking. -/
def setTargetAngle (s : Servo) (angle : ℤ) (duration_s : Option ℚ) (now : ℚ) :
    Servo :=
  let a := max s.min_angle (min s.max_angle angle)
  match duration_s with
  | some d =>
      if 0 < d then
        { s with move := some ⟨s.angle, a, now, d⟩, target := a }
      else
        { s with move := none, target := a }
  | none => { s with move := none, target := a }

/-- The velocity-limited branch of `_thread_run` (one iteration): steps
`angle` toward `target` by at most `max_speed * dt`, emitting a pulse when it
moves.  Returns the new state and the emitted pulse, if any. -/
def velocityStep (s : Servo) (dt : ℚ) : Servo × Option ℤ :=
  if s.angle = s.target then (s, none)
  else
    let max_step := s.max_speed * dt
    let diff : ℤ := s.target - s.angle
    if |(diff : ℚ)| ≤ max_step then
      ({ s with angle := s.target }, some (angleToPulse s s.target))
    else
      let step : ℚ := if 0 < diff then max_step else -max_step
      let na := pyRound ((s.angle : ℚ) + step)
      ({ s with angle := na }, some (angleToPulse s na))

/-- The eased-branch time parameter
`t = min(1, (now - start_ts) / max(1e-6, duration))` of `_thread_run`. -/
noncomputable def easedT (m : EasedMove) (now : ℚ) : ℝ :=
  min 1 (((now - m.start_ts : ℚ) : ℝ) / max (1/1000000) ((m.duration : ℚ) : ℝ))

/-- The rounded interpolated angle `round(start + (target - start) * ease)`
with `ease = 0.5 - 0.5 cos(π t)` at `t = easedT m now`. -/
noncomputable def easedAngle (m : EasedMove) (now : ℚ) : ℤ :=
  pyRound ((m.start_angle : ℝ) + ((m.target_angle - m.start_angle : ℤ) : ℝ) *
    (1/2 - 1/2 * Real.cos (Real.pi * easedT m now)))

/-- One iteration of the body of `ServoController._thread_run` at wall time
`now` with measured tick delta `dt`.  The eased branch runs when
`_move_duration` is truthy (non-`None` and nonzero); on `t ≥ 1` it clears the
move and syncs the target. -/
noncomputable def tick (s : Servo) (now dt : ℚ) : Servo × Option ℤ :=
  match s.move with
  | some m =>
      if m.duration = 0 then velocityStep s dt
      else if 1 ≤ easedT m now then
        ({ s with
            angle := easedAngle m now
            move := none
            target := m.target_angle },
         some (angleToPulse s (easedAngle m now)))
      else
        ({ s with angle := easedAngle m now },
         some (angleToPulse s (easedAngle m now)))
  | none => velocityStep s dt

end ServoController

/-- Claim C4 concrete check: at the default mouth configuration
(`min 0`, `max 180`, pulses `0.5`/`2.5` ms) and angle `5`, the code's
`_angle_to_pulse` truncates `5000/9 ≈ 555.55` to `555`, while rounding to the
nearest microsecond — as the claim states — would give `556`. -/
theorem angle_to_pulse_truncates_cx :
    ServoController.angleToPulse
      (ServoController.init 18 0 180 20 (1/2) (5/2) 180) 5 = 555 ∧
    round (ServoController.pulseVal
      (ServoController.init 18 0 180 20 (1/2) (5/2) 180) 5) = 556 ∧
    (555 : ℤ) ≠ 556 := by
  refine ⟨?_, ?_, by decide⟩
  · show pyInt ((1/2 + ((5 - 0 : ℤ) : ℚ) / max 1 ((180 - 0 : ℤ) : ℚ) * (5/2 - 1/2)) * 1000) = 555
    norm_num [pyInt]
  · show round ((1/2 + ((5 - 0 : ℤ) : ℚ) / max 1 ((180 - 0 : ℤ) : ℚ) * (5/2 - 1/2)) * 1000) = 556
    rw [round_eq]
    norm_num

/-- Claim C4 (amended): `_angle_to_pulse` maps an in-range angle to
`⌊(pulse_min_ms + frac·(pulse_max_ms − pulse_min_ms))·1000⌋` — truncation
toward zero, which on this nonnegative range is the floor, not rounding to
the nearest microsecond — and the mapping is monotone in the angle. -/
theorem angle_to_pulse_floor_monotone (s : Servo) (a b : ℤ)
    (hp0 : 0 ≤ s.pulse_min_ms) (hp : s.pulse_min_ms ≤ s.pulse_max_ms)
    (ha : s.min_angle ≤ a) (hab : a ≤ b) :
    ServoController.angleToPulse s a = ⌊ServoController.pulseVal s a⌋ ∧
    ServoController.angleToPulse s a ≤ ServoController.angleToPulse s b := by
  have hden : (0 : ℚ) < max 1 ((s.max_angle - s.min_angle : ℤ) : ℚ) :=
    lt_of_lt_of_le one_pos (le_max_left _ _)
  have hfrac_nonneg : ∀ c : ℤ, s.min_angle ≤ c → 0 ≤ ServoController.fracOf s c := by
    intro c hc
    apply div_nonneg _ (le_of_lt hden)
    have hc2 : (s.min_angle : ℚ) ≤ (c : ℚ) := by exact_mod_cast hc
    push_cast
    linarith
  have hval_nonneg : ∀ c : ℤ, s.min_angle ≤ c → 0 ≤ ServoController.pulseVal s c := by
    intro c hc
    unfold ServoController.pulseVal
    have := hfrac_nonneg c hc
    nlinarith
  have hfrac_mono : ServoController.fracOf s a ≤ ServoController.fracOf s b := by
    unfold ServoController.fracOf
    apply (div_le_div_iff_of_pos_right hden).mpr
    have hab2 : (a : ℚ) ≤ (b : ℚ) := by exact_mod_cast hab
    push_cast
    linarith
  have hval_mono : ServoController.pulseVal s a ≤ ServoController.pulseVal s b := by
    unfold ServoController.pulseVal
    have h1 : ServoController.fracOf s a * (s.pulse_max_ms - s.pulse_min_ms) ≤
        ServoController.fracOf s b * (s.pulse_max_ms - s.pulse_min_ms) :=
      mul_le_mul_of_nonneg_right hfrac_mono (by linarith)
    nlinarith
  have ha' := hval_nonneg a ha
  have hb' := hval_nonneg b (le_trans ha hab)
  constructor
  · unfold ServoController.angleToPulse pyInt
    rw [if_pos ha']
  · unfold ServoController.angleToPulse pyInt
    rw [if_pos ha', if_pos hb']
    exact Int.floor_le_floor hval_mono

/-- Claim C4 amended-theorem witness at the default mouth configuration. -/
theorem angle_to_pulse_floor_monotone_witness :
    (0 : ℚ) ≤ 1/2 ∧ (1/2 : ℚ) ≤ 5/2 ∧ (0 : ℤ) ≤ 5 ∧ (5 : ℤ) ≤ 7 ∧
    (ServoController.angleToPulse
        (ServoController.init 18 0 180 20 (1/2) (5/2) 180) 5 =
      ⌊ServoController.pulseVal
        (ServoController.init 18 0 180 20 (1/2) (5/2) 180) 5⌋ ∧
     ServoController.angleToPulse
        (ServoController.init 18 0 180 20 (1/2) (5/2) 180) 5 ≤
      ServoController.angleToPulse
        (ServoController.init 18 0 180 20 (1/2) (5/2) 180) 7) :=
  ⟨by norm_num, by norm_num, by decide, by decide,
   angle_to_pulse_floor_monotone _ 5 7 (by norm_num [ServoController.init])
     (by norm_num [ServoController.init]) (by decide) (by decide)⟩

/-! ## Servo worker and invariant (claims C5, C6, C9) -/

/-- Bounds `0 ≤ ease ≤ 1` for the cosine easing `0.5 - 0.5·cos(π t)`, valid
for every real `t`. -/
lemma ease_bounds (t : ℝ) :
    0 ≤ 1/2 - 1/2 * Real.cos (Real.pi * t) ∧
    1/2 - 1/2 * Real.cos (Real.pi * t) ≤ 1 := by
  have h1 := Real.cos_le_one (Real.pi * t)
  have h2 := Real.neg_one_le_cos (Real.pi * t)
  constructor <;> linarith

/-- The rounded convex interpolation between two in-range integers stays in
range. -/
lemma interp_bounds (lo hi a b : ℤ) (e : ℝ)
    (hla : lo ≤ a) (hah : a ≤ hi) (hlb : lo ≤ b) (hbh : b ≤ hi)
    (he0 : 0 ≤ e) (he1 : e ≤ 1) :
    lo ≤ pyRound ((a : ℝ) + ((b - a : ℤ) : ℝ) * e) ∧
    pyRound ((a : ℝ) + ((b - a : ℤ) : ℝ) * e) ≤ hi := by
  have hla' : (lo : ℝ) ≤ (a : ℝ) := by exact_mod_cast hla
  have hlb' : (lo : ℝ) ≤ (b : ℝ) := by exact_mod_cast hlb
  have hah' : (a : ℝ) ≤ (hi : ℝ) := by exact_mod_cast hah
  have hbh' : (b : ℝ) ≤ (hi : ℝ) := by exact_mod_cast hbh
  have hcast : ((b - a : ℤ) : ℝ) = (b : ℝ) - (a : ℝ) := by push_cast; ring
  rw [hcast]
  apply pyRound_mem
  · nlinarith [mul_nonneg (sub_nonneg.mpr hla') (sub_nonneg.mpr he1),
      mul_nonneg (sub_nonneg.mpr hlb') he0]
  · nlinarith [mul_nonneg (sub_nonneg.mpr hah') (sub_nonneg.mpr he1),
      mul_nonneg (sub_nonneg.mpr hbh') he0]

/-- The velocity-limited step from an in-range integer toward another in-range
integer lands between them. -/
lemma step_bounds (lo hi a b : ℤ) (ms : ℚ) (hms : 0 ≤ ms)
    (hla : lo ≤ a) (hah : a ≤ hi) (hlb : lo ≤ b) (hbh : b ≤ hi)
    (hbig : ¬ |((b - a : ℤ) : ℚ)| ≤ ms) :
    lo ≤ pyRound ((a : ℚ) + (if 0 < (b - a : ℤ) then ms else -ms)) ∧
    pyRound ((a : ℚ) + (if 0 < (b - a : ℤ) then ms else -ms)) ≤ hi := by
  push_neg at hbig
  by_cases hdir : 0 < (b - a : ℤ)
  · rw [if_pos hdir]
    have hd' : (0 : ℚ) < ((b - a : ℤ) : ℚ) := by exact_mod_cast hdir
    have habs : |((b - a : ℤ) : ℚ)| = ((b - a : ℤ) : ℚ) := abs_of_pos hd'
    rw [habs] at hbig
    have h1 : (a : ℚ) ≤ (a : ℚ) + ms := by linarith
    have h2 : (a : ℚ) + ms ≤ (b : ℚ) := by push_cast at hbig ⊢; linarith
    have := pyRound_mem a b ((a : ℚ) + ms) h1 h2
    exact ⟨le_trans hla this.1, le_trans this.2 hbh⟩
  · rw [if_neg hdir]
    have hd' : ((b - a : ℤ) : ℚ) ≤ 0 := by exact_mod_cast not_lt.mp hdir
    have habs : |((b - a : ℤ) : ℚ)| = -((b - a : ℤ) : ℚ) := abs_of_nonpos hd'
    rw [habs] at hbig
    have h1 : (b : ℚ) ≤ (a : ℚ) + -ms := by push_cast at hbig ⊢; linarith
    have h2 : (a : ℚ) + -ms ≤ (a : ℚ) := by linarith
    have := pyRound_mem b a ((a : ℚ) + -ms) h1 h2
    exact ⟨le_trans hlb this.1, le_trans this.2 hah⟩

/-- The runtime invariant of one joint: commanded angle and target within the
configured range, nonnegative speed limit, and any installed eased move has
in-range endpoints. -/
def ServoInv (s : Servo) : Prop :=
  s.min_angle ≤ s.angle ∧ s.angle ≤ s.max_angle ∧
  s.min_angle ≤ s.target ∧ s.target ≤ s.max_angle ∧
  0 ≤ s.max_speed ∧
  ∀ m ∈ s.move, s.min_angle ≤ m.start_angle ∧ m.start_angle ≤ s.max_angle ∧
    s.min_angle ≤ m.target_angle ∧ m.target_angle ≤ s.max_angle

lemma setTargetAngle_inv (s : Servo) (a : ℤ) (d : Option ℚ) (now : ℚ)
    (h : ServoInv s) : ServoInv (ServoController.setTargetAngle s a d now) := by
  obtain ⟨h1, h2, h3, h4, h5, h6⟩ := h
  have hmm : s.min_angle ≤ s.max_angle := le_trans h1 h2
  have hc1 : s.min_angle ≤ max s.min_angle (min s.max_angle a) := le_max_left _ _
  have hc2 : max s.min_angle (min s.max_angle a) ≤ s.max_angle :=
    max_le hmm (min_le_left _ _)
  simp only [ServoController.setTargetAngle]
  cases d with
  | none => exact ⟨h1, h2, hc1, hc2, h5, by simp⟩
  | some d =>
      dsimp only
      by_cases hd : 0 < d
      · rw [if_pos hd]
        refine ⟨h1, h2, hc1, hc2, h5, ?_⟩
        intro m' hm'
        simp only [Option.mem_def, Option.some.injEq] at hm'
        rw [← hm']
        exact ⟨h1, h2, hc1, hc2⟩
      · rw [if_neg hd]
        exact ⟨h1, h2, hc1, hc2, h5, by simp⟩

lemma velocityStep_inv (s : Servo) (dt : ℚ) (h : ServoInv s) (hdt : 0 ≤ dt) :
    ServoInv (ServoController.velocityStep s dt).1 := by
  obtain ⟨h1, h2, h3, h4, h5, h6⟩ := h
  unfold ServoController.velocityStep
  by_cases heq : s.angle = s.target
  · rw [if_pos heq]
    exact ⟨h1, h2, h3, h4, h5, h6⟩
  · rw [if_neg heq]
    by_cases hsmall : |((s.target - s.angle : ℤ) : ℚ)| ≤ s.max_speed * dt
    · simp only [if_pos hsmall]
      exact ⟨h3, h4, h3, h4, h5, h6⟩
    · simp only [if_neg hsmall]
      have hb := step_bounds s.min_angle s.max_angle s.angle s.target
        (s.max_speed * dt) (mul_nonneg h5 hdt) h1 h2 h3 h4 hsmall
      exact ⟨hb.1, hb.2, h3, h4, h5, h6⟩

lemma tick_inv (s : Servo) (now dt : ℚ) (h : ServoInv s) (hdt : 0 ≤ dt) :
    ServoInv (ServoController.tick s now dt).1 := by
  unfold ServoController.tick
  cases hm : s.move with
  | none => exact velocityStep_inv s dt h hdt
  | some m =>
      obtain ⟨h1, h2, h3, h4, h5, h6⟩ := h
      have hm6 := h6 m (by rw [hm]; rfl)
      dsimp only
      by_cases hd : m.duration = 0
      · rw [if_pos hd]
        exact velocityStep_inv s dt ⟨h1, h2, h3, h4, h5, h6⟩ hdt
      · rw [if_neg hd]
        have he := ease_bounds (ServoController.easedT m now)
        have hb := interp_bounds s.min_angle s.max_angle m.start_angle
          m.target_angle (1/2 - 1/2 * Real.cos (Real.pi * ServoController.easedT m now))
          hm6.1 hm6.2.1 hm6.2.2.1 hm6.2.2.2 he.1 he.2
        have hb' : s.min_angle ≤ ServoController.easedAngle m now ∧
            ServoController.easedAngle m now ≤ s.max_angle := hb
        by_cases ht : (1 : ℝ) ≤ ServoController.easedT m now
        · rw [if_pos ht]
          exact ⟨hb'.1, hb'.2, hm6.2.2.1, hm6.2.2.2, h5, by simp⟩
        · rw [if_neg ht]
          refine ⟨hb'.1, hb'.2, h3, h4, h5, ?_⟩
          intro m' hm'
          simp only [Option.mem_def, Option.some.injEq] at hm'
          rw [← hm']
          exact hm6

/-- One external interaction with the servo engine: a `set_target_angle` call
(from any thread) or one worker iteration. -/
inductive ServoOp where
  | setTarget (angle : ℤ) (duration_s : Option ℚ) (now : ℚ)
  | tick (now dt : ℚ)

/-- Well-formedness of an interaction: a worker tick has a nonnegative
measured time delta (`dt = now - prev` with monotone wall clock). -/
def ServoOp.wf : ServoOp → Prop
  | .setTarget _ _ _ => True
  | .tick _ dt => 0 ≤ dt

instance (op : ServoOp) : Decidable op.wf := by
  cases op with
  | setTarget a d n => exact .isTrue trivial
  | tick n dt => exact (inferInstance : Decidable (0 ≤ dt))

noncomputable def applyOp (s : Servo) : ServoOp → Servo
  | .setTarget a d now => ServoController.setTargetAngle s a d now
  | .tick now dt => (ServoController.tick s now dt).1

noncomputable def runOps (s : Servo) (ops : List ServoOp) : Servo :=
  ops.foldl applyOp s

lemma applyOp_inv (s : Servo) (op : ServoOp) (h : ServoInv s) (hwf : op.wf) :
    ServoInv (applyOp s op) := by
  cases op with
  | setTarget a d now => exact setTargetAngle_inv s a d now h
  | tick now dt => exact tick_inv s now dt h hwf

lemma runOps_inv (s : Servo) (ops : List ServoOp) (h : ServoInv s)
    (hwf : ∀ op ∈ ops, op.wf) : ServoInv (runOps s ops) := by
  induction ops generalizing s with
  | nil => exact h
  | cons op rest ih =>
      exact ih (applyOp s op) (applyOp_inv s op h (hwf op (by simp)))
        (fun o ho => hwf o (by simp [ho]))

/-- Claim C5: assuming the configuration invariant
`min_angle ≤ neutral ≤ max_angle` (and the data-model invariant
`max_speed ≥ 0`, with nonnegative measured tick deltas), every interleaving of
`set_target_angle` calls and worker iterations keeps the commanded angle
within `[min_angle, max_angle]`. -/
theorem servo_angle_range_invariant (p mn mx nt : ℤ) (pmin pmax msp : ℚ)
    (ops : List ServoOp) (h1 : mn ≤ nt) (h2 : nt ≤ mx) (h3 : 0 ≤ msp)
    (hwf : ∀ op ∈ ops, op.wf) :
    (runOps (ServoController.init p mn mx nt pmin pmax msp) ops).min_angle ≤
      (runOps (ServoController.init p mn mx nt pmin pmax msp) ops).angle ∧
    (runOps (ServoController.init p mn mx nt pmin pmax msp) ops).angle ≤
      (runOps (ServoController.init p mn mx nt pmin pmax msp) ops).max_angle := by
  have hinit : ServoInv (ServoController.init p mn mx nt pmin pmax msp) :=
    ⟨h1, h2, h1, h2, h3, by simp [ServoController.init]⟩
  have := runOps_inv _ ops hinit hwf
  exact ⟨this.1, this.2.1⟩

/-- Claim C5 witness: a concrete run mixing a velocity-limited command, worker
ticks and an eased command on the default eyes joint. -/
theorem servo_angle_range_invariant_witness :
    ((10 : ℤ) ≤ 10 ∧ (10 : ℤ) ≤ 90 ∧ (0 : ℚ) ≤ 90 ∧
      (∀ op ∈ [ServoOp.setTarget 200 none 0, ServoOp.tick 1 1,
        ServoOp.setTarget 20 (some 1) 1, ServoOp.tick 2 1], op.wf)) ∧
    ((runOps (ServoController.init 23 10 90 10 (1/2) (5/2) 90)
        [ServoOp.setTarget 200 none 0, ServoOp.tick 1 1,
         ServoOp.setTarget 20 (some 1) 1, ServoOp.tick 2 1]).min_angle ≤
      (runOps (ServoController.init 23 10 90 10 (1/2) (5/2) 90)
        [ServoOp.setTarget 200 none 0, ServoOp.tick 1 1,
         ServoOp.setTarget 20 (some 1) 1, ServoOp.tick 2 1]).angle ∧
     (runOps (ServoController.init 23 10 90 10 (1/2) (5/2) 90)
        [ServoOp.setTarget 200 none 0, ServoOp.tick 1 1,
         ServoOp.setTarget 20 (some 1) 1, ServoOp.tick 2 1]).angle ≤
      (runOps (ServoController.init 23 10 90 10 (1/2) (5/2) 90)
        [ServoOp.setTarget 200 none 0, ServoOp.tick 1 1,
         ServoOp.setTarget 20 (some 1) 1, ServoOp.tick 2 1]).max_angle) :=
  ⟨⟨le_refl _, by norm_num, by norm_num,
    by intro op hop; fin_cases hop <;> simp [ServoOp.wf]⟩,
   servo_angle_range_invariant 23 10 90 10 (1/2) (5/2) 90 _
     (le_refl _) (by norm_num) (by norm_num)
     (by intro op hop; fin_cases hop <;> simp [ServoOp.wf])⟩

/-- Evaluation of one worker iteration when an eased move with nonzero
duration is installed. -/
lemma tick_eased_eval (s : Servo) (m : EasedMove) (now dt : ℚ)
    (hm : s.move = some m) (hd : m.duration ≠ 0) :
    ServoController.tick s now dt =
      (if 1 ≤ ServoController.easedT m now then
        ({ s with
            angle := ServoController.easedAngle m now
            move := none
            target := m.target_angle },
         some (ServoController.angleToPulse s (ServoController.easedAngle m now)))
      else
        ({ s with angle := ServoController.easedAngle m now },
         some (ServoController.angleToPulse s (ServoController.easedAngle m now)))) := by
  unfold ServoController.tick
  rw [hm]
  dsimp only
  rw [if_neg hd]

/-- The move installed by `set_target_angle` with a positive duration. -/
lemma setTargetAngle_move (s : Servo) (a : ℤ) (d now : ℚ) (hd : 0 < d) :
    (ServoController.setTargetAngle s a (some d) now).move =
      some ⟨s.angle, max s.min_angle (min s.max_angle a), now, d⟩ ∧
    (ServoController.setTargetAngle s a (some d) now).angle = s.angle ∧
    (ServoController.setTargetAngle s a (some d) now).min_angle = s.min_angle ∧
    (ServoController.setTargetAngle s a (some d) now).max_angle = s.max_angle ∧
    (ServoController.setTargetAngle s a (some d) now).target =
      max s.min_angle (min s.max_angle a) := by
  simp only [ServoController.setTargetAngle]
  rw [if_pos hd]
  exact ⟨rfl, rfl, rfl, rfl, rfl⟩

/-- Value of the easing time parameter in the tiny-duration counterexample:
duration `1/2000000` is below the `1e-6` guard, so at elapsed time equal to
the duration `t` is only `1/2`. -/
lemma easedT_tiny_val :
    ServoController.easedT ⟨0, 100, 0, 1/2000000⟩ (1/2000000) = 1/2 := by
  unfold ServoController.easedT
  dsimp only
  have h1 : (((1/2000000 : ℚ) - 0 : ℚ) : ℝ) = 1/2000000 := by
    push_cast
    norm_num
  have h2 : (((1/2000000 : ℚ) : ℚ) : ℝ) = 1/2000000 := by
    push_cast
    norm_num
  rw [h1, h2, max_eq_left (by norm_num : (1/2000000 : ℝ) ≤ 1/1000000)]
  rw [show (1/2000000 : ℝ) / (1/1000000 : ℝ) = 1/2 by norm_num]
  exact min_eq_right (by norm_num)

/-- The interpolated angle at `t = 1/2` from `0` toward `100` is `50`. -/
lemma easedAngle_tiny_val :
    ServoController.easedAngle ⟨0, 100, 0, 1/2000000⟩ (1/2000000) = 50 := by
  unfold ServoController.easedAngle
  rw [easedT_tiny_val]
  dsimp only
  rw [show Real.pi * (1/2 : ℝ) = Real.pi / 2 by ring, Real.cos_pi_div_two]
  rw [show ((0 : ℤ) : ℝ) + (((100 : ℤ) - (0 : ℤ) : ℤ) : ℝ) * (1/2 - 1/2 * 0) =
    ((50 : ℤ) : ℝ) by push_cast; norm_num]
  exact pyRound_intCast 50

/-- Claim C6 counterexample: on the joint `[0, 180]` at angle `0`, install an
eased move to `100` with duration `D = 1/2000000 s` (positive but below the
`1e-6` divisor guard).  At elapsed time exactly `D` the worker computes
`t = 1/2`, yielding angle `50 ≠ 100`, and the move is not cleared — so "any
elapsed time ≥ D yields exactly the clamped target, after which the move is
cleared" fails for this `D > 0`. -/
theorem eased_move_tiny_duration_cx :
    (ServoController.tick
      (ServoController.setTargetAngle
        (ServoController.init 23 0 180 0 (1/2) (5/2) 90) 100
        (some (1/2000000)) 0) (1/2000000) 0).1.angle = 50 ∧
    (50 : ℤ) ≠ 100 ∧
    (ServoController.tick
      (ServoController.setTargetAngle
        (ServoController.init 23 0 180 0 (1/2) (5/2) 90) 100
        (some (1/2000000)) 0) (1/2000000) 0).1.move ≠ none := by
  have hd : (0 : ℚ) < 1/2000000 := by norm_num
  have hmv := setTargetAngle_move (ServoController.init 23 0 180 0 (1/2) (5/2) 90)
    100 (1/2000000) 0 hd
  have hmv1 : (ServoController.setTargetAngle
      (ServoController.init 23 0 180 0 (1/2) (5/2) 90) 100
      (some (1/2000000)) 0).move = some ⟨0, 100, 0, 1/2000000⟩ := by
    rw [hmv.1]
    rfl
  have heval := tick_eased_eval _ ⟨0, 100, 0, 1/2000000⟩ (1/2000000) 0 hmv1
    (by norm_num)
  rw [heval, easedT_tiny_val, if_neg (by norm_num : ¬ (1 : ℝ) ≤ 1/2)]
  refine ⟨easedAngle_tiny_val, by decide, ?_⟩
  dsimp only
  rw [hmv1]
  exact Option.some_ne_none _

/-- Claim C6 (amended): for an eased move installed by
`set_target_angle(a, duration_s = D)` with `D > 0`, the worker's easing
formula at elapsed time `0` reproduces the recorded start angle exactly; and
provided `D ≥ 1e-6` (because of the divisor guard `max(1e-6, duration)`), at
any elapsed time `≥ D` it yields exactly the clamped target, clears the move
and syncs the target. -/
theorem eased_move_endpoints (s : Servo) (a : ℤ) (D t0 now dt : ℚ)
    (hD : 0 < D) :
    (now = t0 →
      (ServoController.tick (ServoController.setTargetAngle s a (some D) t0)
        now dt).1.angle = s.angle) ∧
    (1/1000000 ≤ D → t0 + D ≤ now →
      ((ServoController.tick (ServoController.setTargetAngle s a (some D) t0)
          now dt).1.angle = max s.min_angle (min s.max_angle a) ∧
       (ServoController.tick (ServoController.setTargetAngle s a (some D) t0)
          now dt).1.move = none ∧
       (ServoController.tick (ServoController.setTargetAngle s a (some D) t0)
          now dt).1.target = max s.min_angle (min s.max_angle a))) := by
  have hmv := setTargetAngle_move s a D t0 hD
  have heval := tick_eased_eval _ ⟨s.angle, max s.min_angle (min s.max_angle a), t0, D⟩
    now dt hmv.1 (ne_of_gt hD)
  constructor
  · intro hnow
    have hT0 : ServoController.easedT
        ⟨s.angle, max s.min_angle (min s.max_angle a), t0, D⟩ now = 0 := by
      unfold ServoController.easedT
      dsimp only
      rw [hnow, sub_self]
      push_cast
      simp
    have hA0 : ServoController.easedAngle
        ⟨s.angle, max s.min_angle (min s.max_angle a), t0, D⟩ now = s.angle := by
      unfold ServoController.easedAngle
      rw [hT0]
      dsimp only
      rw [mul_zero, Real.cos_zero]
      rw [show ((s.angle : ℤ) : ℝ) +
        (((max s.min_angle (min s.max_angle a)) - s.angle : ℤ) : ℝ) *
          (1/2 - 1/2 * 1) = ((s.angle : ℤ) : ℝ) by push_cast; ring]
      exact pyRound_intCast s.angle
    rw [heval, hT0, if_neg (by norm_num : ¬ (1 : ℝ) ≤ 0)]
    exact hA0
  · intro hDmin hnow
    have hT1 : ServoController.easedT
        ⟨s.angle, max s.min_angle (min s.max_angle a), t0, D⟩ now = 1 := by
      unfold ServoController.easedT
      dsimp only
      have hD2 : ((1:ℝ)/1000000) ≤ ((D : ℚ) : ℝ) := by
        rw [show ((1:ℝ)/1000000) = (((1/1000000 : ℚ)) : ℝ) by norm_num]
        exact_mod_cast hDmin
      rw [max_eq_right hD2]
      have hquot : (1 : ℝ) ≤ ((now - t0 : ℚ) : ℝ) / ((D : ℚ) : ℝ) := by
        rw [le_div_iff₀ (by exact_mod_cast hD : (0:ℝ) < ((D : ℚ) : ℝ))]
        rw [one_mul]
        exact_mod_cast (by linarith : D ≤ now - t0)
      exact min_eq_left hquot
    have hA1 : ServoController.easedAngle
        ⟨s.angle, max s.min_angle (min s.max_angle a), t0, D⟩ now =
        max s.min_angle (min s.max_angle a) := by
      unfold ServoController.easedAngle
      rw [hT1]
      dsimp only
      rw [mul_one, Real.cos_pi]
      rw [show ((s.angle : ℤ) : ℝ) +
        (((max s.min_angle (min s.max_angle a)) - s.angle : ℤ) : ℝ) *
          (1/2 - 1/2 * (-1)) =
        (((max s.min_angle (min s.max_angle a) : ℤ)) : ℝ) by push_cast; ring]
      exact pyRound_intCast _
    rw [heval, hT1, if_pos (le_refl (1 : ℝ))]
    exact ⟨hA1, rfl, rfl⟩

/-- Claim C6 amended-theorem witness on the joint `[0, 180]`: endpoints of a
one-second eased move from angle `0` to `100`. -/
theorem eased_move_endpoints_witness :
    (0 : ℚ) < 1 ∧
    (ServoController.tick (ServoController.setTargetAngle
        (ServoController.init 23 0 180 0 (1/2) (5/2) 90) 100 (some 1) 0)
      0 0).1.angle = (ServoController.init 23 0 180 0 (1/2) (5/2) 90).angle ∧
    ((ServoController.tick (ServoController.setTargetAngle
        (ServoController.init 23 0 180 0 (1/2) (5/2) 90) 100 (some 1) 0)
      2 0).1.angle =
        max (ServoController.init 23 0 180 0 (1/2) (5/2) 90).min_angle
          (min (ServoController.init 23 0 180 0 (1/2) (5/2) 90).max_angle 100) ∧
     (ServoController.tick (ServoController.setTargetAngle
        (ServoController.init 23 0 180 0 (1/2) (5/2) 90) 100 (some 1) 0)
      2 0).1.move = none ∧
     (ServoController.tick (ServoController.setTargetAngle
        (ServoController.init 23 0 180 0 (1/2) (5/2) 90) 100 (some 1) 0)
      2 0).1.target =
        max (ServoController.init 23 0 180 0 (1/2) (5/2) 90).min_angle
          (min (ServoController.init 23 0 180 0 (1/2) (5/2) 90).max_angle 100)) :=
  ⟨by norm_num,
   (eased_move_endpoints _ 100 1 0 0 0 (by norm_num)).1 rfl,
   (eased_move_endpoints _ 100 1 0 2 0 (by norm_num)).2 (by norm_num) (by norm_num)⟩

/-- A live, not-stopped worker: the engine's run loop keeps iterating and
emitting pulses. -/
def workerLive (s : Servo) : Bool :=
  (match s.thread with | some t => t.alive | none => false) && !s.stop_event

/-- Claim C9: `start` is idempotent while the worker is alive; after
`start(); stop(); start()` the worker is live again with the stop event
cleared; and a subsequent worker iteration with a pending target emits a
pulse — pulse emission resumes. -/
theorem servo_start_stop_start_functional :
    (∀ s : Servo, ∀ t : ThreadHandle, s.thread = some t → t.alive = true →
      ServoController.start s = s) ∧
    (∀ s : Servo,
      workerLive (ServoController.start (ServoController.stop
        (ServoController.start s))) = true) ∧
    (∀ s : Servo, ∀ now dt : ℚ, s.move = none → s.angle ≠ s.target →
      ((ServoController.tick (ServoController.start (ServoController.stop
          (ServoController.start s))) now dt).2).isSome = true) := by
  refine ⟨?_, ?_, ?_⟩
  · intro s t ht ha
    unfold ServoController.start
    rw [ht]
    dsimp only
    rw [if_pos ha]
  · intro s
    simp [ServoController.start, ServoController.stop, workerLive]
  · intro s now dt hmv hne
    have hfields : (ServoController.start (ServoController.stop
        (ServoController.start s))).move = s.move ∧
        (ServoController.start (ServoController.stop
          (ServoController.start s))).angle = s.angle ∧
        (ServoController.start (ServoController.stop
          (ServoController.start s))).target = s.target := by
      unfold ServoController.start ServoController.stop
      cases s.thread with
      | none => exact ⟨rfl, rfl, rfl⟩
      | some t =>
          by_cases ha : t.alive
          · dsimp only
            rw [if_pos ha]
            exact ⟨rfl, rfl, rfl⟩
          · dsimp only
            rw [if_neg ha]
            exact ⟨rfl, rfl, rfl⟩
    unfold ServoController.tick
    rw [hfields.1, hmv]
    dsimp only
    unfold ServoController.velocityStep
    rw [hfields.2.1, hfields.2.2, if_neg hne]
    dsimp only
    by_cases hsmall : |((s.target - s.angle : ℤ) : ℚ)| ≤
        (ServoController.start (ServoController.stop
          (ServoController.start s))).max_speed * dt
    · rw [if_pos hsmall]
      rfl
    · rw [if_neg hsmall]
      rfl

/-- Claim C9 witness at a concrete stopped-then-restarted engine state. -/
theorem servo_start_stop_start_functional_witness :
    (ServoController.start
      { pin := 18, min_angle := 0, max_angle := 180, angle := 20, target := 20,
        pulse_min_ms := 1/2, pulse_max_ms := 5/2, max_speed := 180,
        move := none, stop_event := false, thread := some ⟨true⟩ } =
      { pin := 18, min_angle := 0, max_angle := 180, angle := 20, target := 20,
        pulse_min_ms := 1/2, pulse_max_ms := 5/2, max_speed := 180,
        move := none, stop_event := false, thread := some ⟨true⟩ }) ∧
    workerLive (ServoController.start (ServoController.stop
      (ServoController.start
        (ServoController.init 18 0 180 20 (1/2) (5/2) 180)))) = true ∧
    ((ServoController.tick (ServoController.start (ServoController.stop
        (ServoController.start
          { pin := 18, min_angle := 0, max_angle := 180, angle := 20,
            target := 90, pulse_min_ms := 1/2, pulse_max_ms := 5/2,
            max_speed := 180, move := none, stop_event := false,
            thread := none }))) 0 1).2).isSome = true :=
  ⟨servo_start_stop_start_functional.1 _ ⟨true⟩ rfl rfl,
   servo_start_stop_start_functional.2.1 _,
   servo_start_stop_start_functional.2.2 _ 0 1 rfl (by decide)⟩

/-! ## Blink scheduler (`blink_controller.py`): claims C1, C2, C10 -/

/-- A read-only observation of the mouth servo used by `_mouth_level`
(`angle`, `min_angle`, `max_angle`); `none` models `mouth_servo=None`. -/
structure MouthObs where
  angle : ℤ
  min_angle : ℤ
  max_angle : ℤ
deriving DecidableEq

/-- State of one `BlinkController` object. `last_mouth_low_ts = 0` means
"unset". -/
structure BlinkCtl where
  mean : ℚ
  duration : ℚ
  suppress_on : ℚ
  suppress_off : ℚ
  suppress_off_ms : ℚ
  running : Bool
  thread : Option ThreadHandle
  last_mouth_low_ts : ℚ
deriving DecidableEq

namespace BlinkController

/-- `BlinkController.__init__`: `duration = duration_ms / 1000`. -/
def init (mean_interval_s duration_ms suppress_mouth_on suppress_mouth_off
    suppress_off_ms : ℚ) : BlinkCtl :=
  { mean := mean_interval_s
    duration := duration_ms / 1000
    suppress_on := suppress_mouth_on
    suppress_off := suppress_mouth_off
    suppress_off_ms := suppress_off_ms
    running := false
    thread := none
    last_mouth_low_ts := 0 }

/-- `BlinkController.start`: returns immediately when `self._thread` is set
(truthy), whether or not that thread is still alive. -/
def start (b : BlinkCtl) : BlinkCtl :=
  match b.thread with
  | some _ => b
  | none => { b with running := true, thread := some ⟨true⟩ }

/-- `BlinkController.stop`: clears `_running` and joins the worker; the
stored thread handle is NOT cleared. -/
def stop (b : BlinkCtl) : BlinkCtl :=
  { b with running := false, thread := b.thread.map fun _ => ⟨false⟩ }

/-- `BlinkController._mouth_level`: normalized mouth level in `[0, 1]`,
`0` when no mouth servo or degenerate range. -/
def mouthLevel (mouth : Option MouthObs) : ℚ :=
  match mouth with
  | none => 0
  | some mo =>
      if (mo.max_angle : ℚ) ≤ (mo.min_angle : ℚ) then 0
      else max 0 (min 1 (((mo.angle : ℚ) - (mo.min_angle : ℚ)) /
        max (1/1000000) ((mo.max_angle : ℚ) - (mo.min_angle : ℚ))))

/-- `BlinkController._can_blink_now` at wall time `now`, reading the current
mouth observation: returns the decision and the updated controller state. -/
def canBlinkNow (b : BlinkCtl) (mouth : Option MouthObs) (now : ℚ) :
    Bool × BlinkCtl :=
  match mouth with
  | none => (true, b)
  | some mo =>
      let lvl := mouthLevel (some mo)
      let b1 :=
        if lvl ≤ b.suppress_off then
          (if b.last_mouth_low_ts = 0 then { b with last_mouth_low_ts := now }
           else b)
        else
          (if b.suppress_on < lvl then { b with last_mouth_low_ts := 0 }
           else b)
      if b1.last_mouth_low_ts = 0 then (false, b1)
      else (decide ((now - b1.last_mouth_low_ts) * 1000 ≥ b.suppress_off_ms), b1)

/-- `BlinkController._perform_blink` acting on the eyes servo: close to
`min_angle` over `self.duration`, then re-open to
`getattr(self.eyes, "neutral", self.eyes.max_angle)` — which is always
`max_angle`, because `ServoController` stores no `neutral` attribute — over
`max(0.01, self.duration / 1.5)`.  `t1`/`t2` are the wall times of the two
`set_target_angle` calls. -/
def performBlink (b : BlinkCtl) (eyes : Servo) (t1 t2 : ℚ) : Servo :=
  let close_angle := eyes.min_angle
  let open_angle := eyes.max_angle
  let s1 := ServoController.setTargetAngle eyes close_angle (some b.duration) t1
  ServoController.setTargetAngle s1 open_angle
    (some (max (1/100) (b.duration / (3/2)))) t2

end BlinkController

/-- Configuration-independent field preservation of `set_target_angle`. -/
lemma setTargetAngle_fields (s : Servo) (a : ℤ) (d : Option ℚ) (now : ℚ) :
    (ServoController.setTargetAngle s a d now).angle = s.angle ∧
    (ServoController.setTargetAngle s a d now).min_angle = s.min_angle ∧
    (ServoController.setTargetAngle s a d now).max_angle = s.max_angle ∧
    (ServoController.setTargetAngle s a d now).target =
      max s.min_angle (min s.max_angle a) := by
  simp only [ServoController.setTargetAngle]
  cases d with
  | none => exact ⟨rfl, rfl, rfl, rfl⟩
  | some d =>
      dsimp only
      by_cases hd : 0 < d
      · rw [if_pos hd]
        exact ⟨rfl, rfl, rfl, rfl⟩
      · rw [if_neg hd]
        exact ⟨rfl, rfl, rfl, rfl⟩

/-- Evaluation of `_perform_blink`: the close command targets `min_angle`;
the re-open command targets `max_angle` (the `getattr` fallback) with
duration `max(0.01, duration/1.5)`, easing from the angle at call time. -/
lemma performBlink_eval (b : BlinkCtl) (eyes : Servo) (t1 t2 : ℚ)
    (hmx : eyes.min_angle ≤ eyes.max_angle) :
    (BlinkController.performBlink b eyes t1 t2).target = eyes.max_angle ∧
    (BlinkController.performBlink b eyes t1 t2).move =
      some ⟨eyes.angle, eyes.max_angle, t2, max (1/100) (b.duration / (3/2))⟩ := by
  unfold BlinkController.performBlink
  have hdur2 : (0 : ℚ) < max (1/100) (b.duration / (3/2)) :=
    lt_of_lt_of_le (by norm_num) (le_max_left _ _)
  have hf := setTargetAngle_fields eyes eyes.min_angle (some b.duration) t1
  have hmv := setTargetAngle_move
    (ServoController.setTargetAngle eyes eyes.min_angle (some b.duration) t1)
    eyes.max_angle (max (1/100) (b.duration / (3/2))) t2 hdur2
  have hclamp :
      max (ServoController.setTargetAngle eyes eyes.min_angle
          (some b.duration) t1).min_angle
        (min (ServoController.setTargetAngle eyes eyes.min_angle
          (some b.duration) t1).max_angle eyes.max_angle) = eyes.max_angle := by
    rw [hf.2.1, hf.2.2.1, min_self, max_eq_right hmx]
  constructor
  · rw [hmv.2.2.2.2, hclamp]
  · rw [hmv.1, hclamp, hf.1]

/-- Claim C1 counterexample: with the eyes joint configured as in
`state_machine.py` defaults (`min 10`, `max 90`, `neutral 10`), the re-open
target issued by `_perform_blink` is `90 = max_angle`, not the configured
neutral `10` — `ServoController.__init__` never stores a `neutral`
attribute, so `getattr(self.eyes, "neutral", self.eyes.max_angle)` takes the
fallback. -/
theorem blink_reopen_not_neutral_cx :
    (BlinkController.performBlink
      (BlinkController.init 6 160 (1/4) (1/10) 200)
      (ServoController.init 23 10 90 10 (1/2) (5/2) 90) 0 1).target = 90 ∧
    (BlinkController.performBlink
      (BlinkController.init 6 160 (1/4) (1/10) 200)
      (ServoController.init 23 10 90 10 (1/2) (5/2) 90) 0 1).target ≠ 10 := by
  have h := performBlink_eval (BlinkController.init 6 160 (1/4) (1/10) 200)
    (ServoController.init 23 10 90 10 (1/2) (5/2) 90) 0 1 (by decide)
  have h90 : (ServoController.init 23 10 90 10 (1/2) (5/2) 90).max_angle = 90 := rfl
  rw [h90] at h
  exact ⟨h.1, by rw [h.1]; decide⟩

/-- Claim C1 (amended): `_perform_blink` first commands the eyes closed to
`min_angle` with duration `duration_ms/1000`, then commands them to
`max_angle` — the `getattr(eyes, "neutral", eyes.max_angle)` fallback, since
the servo stores no `neutral` attribute — installing an eased move of
duration `max(0.01, (duration_ms/1000)/1.5)`. -/
theorem blink_reopen_target_max_angle (b : BlinkCtl) (eyes : Servo)
    (t1 t2 : ℚ) (hmx : eyes.min_angle ≤ eyes.max_angle) :
    (ServoController.setTargetAngle eyes eyes.min_angle (some b.duration)
      t1).target = eyes.min_angle ∧
    (BlinkController.performBlink b eyes t1 t2).target = eyes.max_angle ∧
    (BlinkController.performBlink b eyes t1 t2).move =
      some ⟨eyes.angle, eyes.max_angle, t2, max (1/100) (b.duration / (3/2))⟩ := by
  have hf := setTargetAngle_fields eyes eyes.min_angle (some b.duration) t1
  have hclose : max eyes.min_angle (min eyes.max_angle eyes.min_angle) =
      eyes.min_angle := by
    rw [min_eq_right hmx, max_self]
  have h := performBlink_eval b eyes t1 t2 hmx
  exact ⟨by rw [hf.2.2.2, hclose], h.1, h.2⟩

/-- Claim C1 amended-theorem witness at the default blink and eyes
configuration. -/
theorem blink_reopen_target_max_angle_witness :
    ((ServoController.init 23 10 90 10 (1/2) (5/2) 90).min_angle ≤
      (ServoController.init 23 10 90 10 (1/2) (5/2) 90).max_angle) ∧
    ((ServoController.setTargetAngle (ServoController.init 23 10 90 10 (1/2) (5/2) 90)
        (ServoController.init 23 10 90 10 (1/2) (5/2) 90).min_angle
        (some (BlinkController.init 6 160 (1/4) (1/10) 200).duration) 0).target =
      (ServoController.init 23 10 90 10 (1/2) (5/2) 90).min_angle ∧
     (BlinkController.performBlink (BlinkController.init 6 160 (1/4) (1/10) 200)
        (ServoController.init 23 10 90 10 (1/2) (5/2) 90) 0 1).target =
      (ServoController.init 23 10 90 10 (1/2) (5/2) 90).max_angle ∧
     (BlinkController.performBlink (BlinkController.init 6 160 (1/4) (1/10) 200)
        (ServoController.init 23 10 90 10 (1/2) (5/2) 90) 0 1).move =
      some ⟨(ServoController.init 23 10 90 10 (1/2) (5/2) 90).angle,
        (ServoController.init 23 10 90 10 (1/2) (5/2) 90).max_angle, 1,
        max (1/100) ((BlinkController.init 6 160 (1/4) (1/10) 200).duration / (3/2))⟩) :=
  ⟨by decide,
   blink_reopen_target_max_angle (BlinkController.init 6 160 (1/4) (1/10) 200)
     (ServoController.init 23 10 90 10 (1/2) (5/2) 90) 0 1 (by decide)⟩

/-- Claim C2 counterexample: with no mouth reference, `_can_blink_now`
returns `True` immediately (first line of the method) even though
`last_mouth_low_ts` is unset (`0`), so the claimed "result is true iff
`last_mouth_low_ts` is set and held for `suppress_off_ms`" is false. -/
theorem can_blink_no_mouth_cx :
    (BlinkController.canBlinkNow
      (BlinkController.init 6 160 (1/4) (1/10) 200) none 5).1 = true ∧
    (BlinkController.canBlinkNow
      (BlinkController.init 6 160 (1/4) (1/10) 200) none 5).2.last_mouth_low_ts = 0 ∧
    ¬ ((BlinkController.canBlinkNow
          (BlinkController.init 6 160 (1/4) (1/10) 200) none 5).2.last_mouth_low_ts ≠ 0 ∧
        (5 - (BlinkController.canBlinkNow
          (BlinkController.init 6 160 (1/4) (1/10) 200) none 5).2.last_mouth_low_ts) * 1000 ≥
          (BlinkController.init 6 160 (1/4) (1/10) 200).suppress_off_ms) := by
  refine ⟨rfl, rfl, ?_⟩
  intro hcontra
  exact hcontra.1 rfl

/-- Claim C2 (amended): when a mouth reference is present, the gate's result
is true iff (after the Schmitt-trigger update) `last_mouth_low_ts` is set and
`(now − last_mouth_low_ts)·1000 ≥ suppress_off_ms`; when there is no mouth
reference the gate returns `True` unconditionally, without consulting the
level or any recorded low timestamp. -/
theorem can_blink_gate_characterization (b : BlinkCtl) (now : ℚ) :
    BlinkController.canBlinkNow b none now = (true, b) ∧
    ∀ mo : MouthObs,
      ((BlinkController.canBlinkNow b (some mo) now).1 = true ↔
        ((BlinkController.canBlinkNow b (some mo) now).2.last_mouth_low_ts ≠ 0 ∧
         (now - (BlinkController.canBlinkNow b (some mo) now).2.last_mouth_low_ts)
           * 1000 ≥ b.suppress_off_ms)) := by
  refine ⟨rfl, ?_⟩
  intro mo
  unfold BlinkController.canBlinkNow
  dsimp only
  set b1 := if BlinkController.mouthLevel (some mo) ≤ b.suppress_off then
      (if b.last_mouth_low_ts = 0 then { b with last_mouth_low_ts := now } else b)
    else
      (if b.suppress_on < BlinkController.mouthLevel (some mo) then
        { b with last_mouth_low_ts := 0 } else b) with hb1
  by_cases h : b1.last_mouth_low_ts = 0
  · rw [if_pos h]
    simp [h]
  · rw [if_neg h]
    simp [h]

/-- A blink worker that is (still) alive. -/
def blinkWorkerAlive (b : BlinkCtl) : Bool :=
  match b.thread with
  | some t => t.alive
  | none => false

/-- Claim C10: `BlinkController.stop` joins the worker but leaves the stored
thread handle set, so every later `start()` returns immediately (the handle
is truthy) and no live worker exists afterwards — blinking never resumes
after a stop/start round-trip, unlike the servo engine. -/
theorem blink_start_after_stop_noop (b : BlinkCtl)
    (h : b.thread.isSome = true) :
    (BlinkController.stop b).thread.isSome = true ∧
    BlinkController.start (BlinkController.stop b) = BlinkController.stop b ∧
    blinkWorkerAlive (BlinkController.stop b) = false := by
  cases hb : b.thread with
  | none => rw [hb] at h; simp at h
  | some t =>
      refine ⟨?_, ?_, ?_⟩ <;>
        simp [BlinkController.stop, BlinkController.start, blinkWorkerAlive, hb]

/-- Claim C10 witness at a concrete started blink controller. -/
theorem blink_start_after_stop_noop_witness :
    ((⟨6, 4/25, 1/4, 1/10, 200, true, some ⟨true⟩, 0⟩ : BlinkCtl).thread.isSome
      = true) ∧
    ((BlinkController.stop
        (⟨6, 4/25, 1/4, 1/10, 200, true, some ⟨true⟩, 0⟩ : BlinkCtl)).thread.isSome
      = true ∧
     BlinkController.start (BlinkController.stop
        (⟨6, 4/25, 1/4, 1/10, 200, true, some ⟨true⟩, 0⟩ : BlinkCtl)) =
       BlinkController.stop
        (⟨6, 4/25, 1/4, 1/10, 200, true, some ⟨true⟩, 0⟩ : BlinkCtl) ∧
     blinkWorkerAlive (BlinkController.stop
        (⟨6, 4/25, 1/4, 1/10, 200, true, some ⟨true⟩, 0⟩ : BlinkCtl)) = false) :=
  ⟨rfl, blink_start_after_stop_noop _ rfl⟩

/-! ## Vocal detector (`speech_detector.py`): claims C3, C7 -/

/-- Detector configuration (`SpeechDetector.__init__` fields). -/
structure DetCfg where
  sample_rate : ℕ
  goertzel_freqs : List ℚ
  w_rms : ℚ
  w_centroid : ℚ
  w_zcr : ℚ
  rms_threshold : ℚ
  zcr_threshold : ℚ
  on_th : ℚ
  off_th : ℚ
  off_hold_ms : ℚ

/-- Mutable detector state: `hysteresis_state` and `_last_above_ts`. -/
structure DetState where
  hysteresis_state : Bool
  last_above_ts : ℚ
deriving DecidableEq

/-- The per-frame feature record `{vocalness, rms, zcr, centroid}`. -/
structure VocalInfo where
  vocalness : ℝ
  rms : ℝ
  zcr : ℝ
  centroid : ℝ

/-- The all-zero feature record returned for empty or malformed PCM. -/
def zeroInfo : VocalInfo := ⟨0, 0, 0, 0⟩

/-- The default detector configuration of `SpeechDetector.__init__` /
`config.py`. -/
def defaultDetCfg : DetCfg :=
  ⟨44100, [300, 500, 1000], 3/5, 3/10, 1/10, 1/50, 1/20, 9/20, 3/10, 200⟩

namespace SpeechDetector

/-- Decode one little-endian signed 16-bit sample from two bytes
(`struct.unpack("<h…")`). -/
def int16LE (lo hi : ℕ) : ℤ :=
  let v : ℤ := (lo % 256 : ℕ) + 256 * ((hi % 256 : ℕ) : ℤ)
  if 32768 ≤ v then v - 65536 else v

/-- Group a byte list into consecutive pairs (little-endian sample order). -/
def bytePairs : List ℕ → List (ℕ × ℕ)
  | lo :: hi :: rest => (lo, hi) :: bytePairs rest
  | _ => []

/-- Sum of `|signs[i] - signs[i-1]|` over consecutive elements. -/
def adjAbsSum : List ℤ → ℤ
  | a :: b :: rest => |b - a| + adjAbsSum (b :: rest)
  | _ => 0

/-- Python `max(list)` over the (positive, nonempty) Goertzel frequency
list; `0` for an empty list, which the source never passes. -/
def maxListQ (l : List ℚ) : ℚ := l.foldl max 0

/-- The `goertzel` helper: recursive single-bin magnitude
`sqrt(max(0, s₂² + s₁² − c·s₁·s₂))` with `c = 2·cos(2π·f/rate)`. -/
noncomputable def goertzel (samples : List ℝ) (sample_rate : ℕ) (freq : ℚ) : ℝ :=
  let coeff : ℝ := 2 * Real.cos (2 * Real.pi * ((freq : ℝ) / (sample_rate : ℝ)))
  let p := samples.foldl (fun (q : ℝ × ℝ) x => (x + coeff * q.1 - q.2, q.1)) (0, 0)
  Real.sqrt (max 0 (p.2 * p.2 + p.1 * p.1 - coeff * p.1 * p.2))

/-- `SpeechDetector.compute_vocalness`: per-frame features on normalized
samples; returns the all-zero record for an empty buffer, a buffer shorter
than one sample, or an odd-length buffer (where `struct.unpack` raises). -/
noncomputable def computeVocalness (cfg : DetCfg) (raw : List ℕ) : VocalInfo :=
  if raw = [] then zeroInfo
  else
    let n := raw.length / 2
    if n = 0 then zeroInfo
    else if raw.length ≠ 2 * n then zeroInfo
    else
      let samples : List ℝ :=
        (bytePairs raw).map (fun p => ((int16LE p.1 p.2 : ℤ) : ℝ) / 32768)
      let rms : ℝ :=
        Real.sqrt ((samples.map (fun s => s * s)).sum /
          max 1 ((samples.length : ℕ) : ℝ))
      let signs : List ℤ := samples.map (fun s => if 0 < s then 1 else 0)
      let zcr : ℝ :=
        ((adjAbsSum signs : ℤ) : ℝ) / max 1 (((signs.length : ℤ) - 1 : ℤ) : ℝ)
      let mags : List ℝ :=
        cfg.goertzel_freqs.map (fun f => goertzel samples cfg.sample_rate f)
      let s_mags := mags.sum
      let centroid : ℝ :=
        if 0 < s_mags then
          (((cfg.goertzel_freqs.zip mags).map
              (fun fm => ((fm.1 : ℚ) : ℝ) * fm.2)).sum / s_mags) /
            ((maxListQ cfg.goertzel_freqs : ℚ) : ℝ)
        else 0
      let rms_term : ℝ :=
        min 1 (rms / max (1/1000000) (((cfg.rms_threshold : ℚ) : ℝ) * 4))
      let zcr_term : ℝ :=
        min 1 (zcr / max (1/1000000) (((cfg.zcr_threshold : ℚ) : ℝ) * 4))
      let vocal : ℝ :=
        max 0 (min 1 (((cfg.w_rms : ℚ) : ℝ) * rms_term +
          ((cfg.w_centroid : ℚ) : ℝ) * centroid +
          ((cfg.w_zcr : ℚ) : ℝ) * zcr_term))
      ⟨vocal, rms, zcr, centroid⟩

end SpeechDetector

/-- The candidate condition of `SpeechDetector.is_vocal`:
`rms > rms_threshold AND vocalness ≥ on_th AND (centroid > 0.45 OR
voicedness)`, with `voicedness = (1 − zcr_norm) > 0.55`. -/
def DetCandidate (cfg : DetCfg) (info : VocalInfo) : Prop :=
  info.rms > ((cfg.rms_threshold : ℚ) : ℝ) ∧
  info.vocalness ≥ ((cfg.on_th : ℚ) : ℝ) ∧
  (info.centroid > 0.45 ∨
    1 - min 1 (info.zcr / max (1/1000000) (((cfg.zcr_threshold : ℚ) : ℝ) * 4))
      > 0.55)

noncomputable instance (cfg : DetCfg) (info : VocalInfo) :
    Decidable (DetCandidate cfg info) := by
  unfold DetCandidate
  infer_instance

namespace SpeechDetector

/-- The state-update half of `SpeechDetector.is_vocal` (lines after feature
extraction): on a candidate frame set state and `last_above_ts := now`;
otherwise clear the state only once `(now − last_above_ts)·1000 ≥
off_hold_ms`.  Returns the reported `vocal` flag and the new state. -/
noncomputable def isVocalStep (cfg : DetCfg) (st : DetState)
    (info : VocalInfo) (now : ℚ) : Bool × DetState :=
  if DetCandidate cfg info then (true, ⟨true, now⟩)
  else if (now - st.last_above_ts) * 1000 ≥ cfg.off_hold_ms then
    (false, ⟨false, st.last_above_ts⟩)
  else (st.hysteresis_state, st)

/-- `SpeechDetector.is_vocal`: features, then hysteretic decision.  Returns
`(vocal, info, new state)`. -/
noncomputable def isVocal (cfg : DetCfg) (st : DetState) (raw : List ℕ)
    (now : ℚ) : Bool × VocalInfo × DetState :=
  let info := computeVocalness cfg raw
  let r := isVocalStep cfg st info now
  (r.1, info, r.2)

end SpeechDetector

/-- The all-zero feature record is never a candidate frame when the RMS
threshold is nonnegative. -/
lemma zero_info_not_candidate (cfg : DetCfg) (h : 0 ≤ cfg.rms_threshold) :
    ¬ DetCandidate cfg zeroInfo := by
  intro hc
  have h1 := hc.1
  have h2 : ((0 : ℚ) : ℝ) ≤ ((cfg.rms_threshold : ℚ) : ℝ) := by exact_mod_cast h
  dsimp [zeroInfo] at h1
  push_cast at h2
  linarith

/-- Empty and odd-length buffers produce the all-zero feature record. -/
lemma computeVocalness_malformed (cfg : DetCfg) (raw : List ℕ)
    (h : raw = [] ∨ raw.length % 2 = 1) :
    SpeechDetector.computeVocalness cfg raw = zeroInfo := by
  unfold SpeechDetector.computeVocalness
  rcases h with h | h
  · rw [if_pos h]
  · by_cases he : raw = []
    · rw [if_pos he]
    · rw [if_neg he]
      dsimp only
      by_cases hn : raw.length / 2 = 0
      · rw [if_pos hn]
      · rw [if_neg hn]
        have hne : raw.length ≠ 2 * (raw.length / 2) := by omega
        rw [if_pos hne]

/-- Claim C3 counterexample: feed an empty buffer to a detector whose
`hysteresis_state` is `true` with `last_above_ts = 0` at `now = 1 s`
(so 1000 ms ≥ `off_hold_ms` = 200 ms have elapsed): the returned `vocal` is
`false` and the stored state is cleared — the `else` branch's off-hold timer
DOES run on malformed frames, contradicting "hysteresis_state … is left
unchanged". -/
theorem malformed_frame_clears_hysteresis_cx :
    (SpeechDetector.isVocal defaultDetCfg ⟨true, 0⟩ [] 1).1 = false ∧
    (⟨true, 0⟩ : DetState).hysteresis_state = true ∧
    (SpeechDetector.isVocal defaultDetCfg ⟨true, 0⟩ [] 1).2.2.hysteresis_state
      = false := by
  have hz := computeVocalness_malformed defaultDetCfg [] (Or.inl rfl)
  have hnc := zero_info_not_candidate defaultDetCfg
    (by norm_num [defaultDetCfg])
  have ht : ((1 : ℚ) - (0 : ℚ)) * 1000 ≥ defaultDetCfg.off_hold_ms := by
    norm_num [defaultDetCfg]
  unfold SpeechDetector.isVocal
  dsimp only
  rw [hz]
  unfold SpeechDetector.isVocalStep
  rw [if_neg hnc, if_pos ht]
  exact ⟨rfl, rfl, rfl⟩

/-- Claim C3 (amended): on an empty or malformed (odd-length) PCM buffer the
detector returns the all-zero feature record, and — since such a frame is
simply a non-candidate frame — the hysteresis follows the normal off-hold
rule: the state (and hence the returned `vocal`) is cleared iff
`(now − last_above_ts)·1000 ≥ off_hold_ms`, so it is unchanged only within
the off-hold window. -/
theorem malformed_frame_zero_info_hysteresis (cfg : DetCfg) (st : DetState)
    (raw : List ℕ) (now : ℚ) (hmal : raw = [] ∨ raw.length % 2 = 1)
    (hth : 0 ≤ cfg.rms_threshold) :
    (SpeechDetector.isVocal cfg st raw now).2.1 = zeroInfo ∧
    (SpeechDetector.isVocal cfg st raw now).2.2 =
      (if (now - st.last_above_ts) * 1000 ≥ cfg.off_hold_ms then
        ⟨false, st.last_above_ts⟩ else st) ∧
    (SpeechDetector.isVocal cfg st raw now).1 =
      (if (now - st.last_above_ts) * 1000 ≥ cfg.off_hold_ms then false
       else st.hysteresis_state) := by
  have hz := computeVocalness_malformed cfg raw hmal
  have hnc := zero_info_not_candidate cfg hth
  unfold SpeechDetector.isVocal
  dsimp only
  rw [hz]
  unfold SpeechDetector.isVocalStep
  rw [if_neg hnc]
  by_cases ht : (now - st.last_above_ts) * 1000 ≥ cfg.off_hold_ms
  · rw [if_pos ht, if_pos ht, if_pos ht]
    exact ⟨rfl, rfl, rfl⟩
  · rw [if_neg ht, if_neg ht, if_neg ht]
    exact ⟨rfl, rfl, rfl⟩

/-- Claim C3 amended-theorem witness: an odd-length (3-byte) buffer inside
the off-hold window leaves the state untouched. -/
theorem malformed_frame_zero_info_hysteresis_witness :
    (([7, 7, 7] : List ℕ) = [] ∨ ([7, 7, 7] : List ℕ).length % 2 = 1) ∧
    (0 : ℚ) ≤ defaultDetCfg.rms_threshold ∧
    ((SpeechDetector.isVocal defaultDetCfg ⟨true, 0⟩ [7, 7, 7] (1/10)).2.1
        = zeroInfo ∧
     (SpeechDetector.isVocal defaultDetCfg ⟨true, 0⟩ [7, 7, 7] (1/10)).2.2 =
       (if ((1/10 : ℚ) - (⟨true, 0⟩ : DetState).last_above_ts) * 1000 ≥
           defaultDetCfg.off_hold_ms then
         ⟨false, (⟨true, 0⟩ : DetState).last_above_ts⟩ else (⟨true, 0⟩ : DetState)) ∧
     (SpeechDetector.isVocal defaultDetCfg ⟨true, 0⟩ [7, 7, 7] (1/10)).1 =
       (if ((1/10 : ℚ) - (⟨true, 0⟩ : DetState).last_above_ts) * 1000 ≥
           defaultDetCfg.off_hold_ms then false
        else (⟨true, 0⟩ : DetState).hysteresis_state)) :=
  ⟨Or.inr rfl, by norm_num [defaultDetCfg],
   malformed_frame_zero_info_hysteresis defaultDetCfg ⟨true, 0⟩ [7, 7, 7]
     (1/10) (Or.inr rfl) (by norm_num [defaultDetCfg])⟩

/-- Claim C7: the detector's `hysteresis_state` can go from `true` to `false`
only on a non-candidate frame for which at least `off_hold_ms` have elapsed
since `last_above_ts` (the last candidate frame); any earlier frame leaves it
set. -/
theorem hysteresis_clear_requires_off_hold (cfg : DetCfg) (st : DetState)
    (info : VocalInfo) (now : ℚ) (h1 : st.hysteresis_state = true)
    (h2 : (SpeechDetector.isVocalStep cfg st info now).2.hysteresis_state
      = false) :
    ¬ DetCandidate cfg info ∧
    (now - st.last_above_ts) * 1000 ≥ cfg.off_hold_ms := by
  unfold SpeechDetector.isVocalStep at h2
  by_cases hc : DetCandidate cfg info
  · rw [if_pos hc] at h2
    simp at h2
  · rw [if_neg hc] at h2
    by_cases ht : (now - st.last_above_ts) * 1000 ≥ cfg.off_hold_ms
    · exact ⟨hc, ht⟩
    · rw [if_neg ht] at h2
      rw [h1] at h2
      simp at h2

/-- Claim C7 witness: a concrete non-candidate (all-zero) frame past the
off-hold window clears the state, and the theorem recovers both facts. -/
theorem hysteresis_clear_requires_off_hold_witness :
    ((⟨true, 0⟩ : DetState).hysteresis_state = true ∧
     (SpeechDetector.isVocalStep defaultDetCfg ⟨true, 0⟩ zeroInfo 1).2.hysteresis_state
       = false) ∧
    (¬ DetCandidate defaultDetCfg zeroInfo ∧
     ((1 : ℚ) - (⟨true, 0⟩ : DetState).last_above_ts) * 1000 ≥
       defaultDetCfg.off_hold_ms) :=
  have hstep : (SpeechDetector.isVocalStep defaultDetCfg ⟨true, 0⟩ zeroInfo
      1).2.hysteresis_state = false := by
    unfold SpeechDetector.isVocalStep
    rw [if_neg (zero_info_not_candidate defaultDetCfg (by norm_num [defaultDetCfg]))]
    rw [if_pos (by norm_num [defaultDetCfg] :
      ((1 : ℚ) - (⟨true, 0⟩ : DetState).last_above_ts) * 1000 ≥
        defaultDetCfg.off_hold_ms)]
  ⟨⟨rfl, hstep⟩,
   hysteresis_clear_requires_off_hold defaultDetCfg ⟨true, 0⟩ zeroInfo 1 rfl hstep⟩

/-! ## State machine (`state_machine.py`): claim C8 -/

/-- High-level state labels of `TeddyStateMachine`. -/
inductive TState where
  | INIT
  | RUNNING
  | SLEEP
deriving DecidableEq

/-- Tick-relevant configuration of the state machine. -/
structure SMCfg where
  mouth_min : ℤ
  mouth_max : ℤ
  eyes_min : ℤ
  eyes_max : ℤ
  min_open_ms : ℚ
  idle_timeout : ℚ
  eye_close_duration : ℚ
deriving DecidableEq

/-- Mutable tick state: the state label and `last_vocal_ts`. -/
structure SMState where
  state : TState
  last_vocal_ts : ℚ
deriving DecidableEq

namespace TeddyStateMachine

/-- One iteration of the `run` loop after the detector returned `vocal_now`
at wall time `now`, with the eyes servo currently at `eyesAngle`.  Returns
the new state together with the `set_target_angle` commands issued to the
mouth and to the eyes as `(angle, duration_s)` pairs. -/
def tick (cfg : SMCfg) (m : SMState) (vocal_now : Bool) (now : ℚ)
    (eyesAngle : ℤ) : SMState × List (ℤ × ℚ) × List (ℤ × ℚ) :=
  let last2 := if vocal_now then now else m.last_vocal_ts
  let mouthCmds : List (ℤ × ℚ) :=
    if vocal_now then [(cfg.mouth_max, 1/20)]
    else if (now - m.last_vocal_ts) * 1000 > cfg.min_open_ms then
      [(cfg.mouth_min, 2/25)]
    else []
  if now - last2 > cfg.idle_timeout then
    (⟨if |eyesAngle - cfg.eyes_max| ≤ 3 then TState.SLEEP else m.state, last2⟩,
     mouthCmds, [(cfg.eyes_max, cfg.eye_close_duration)])
  else
    (⟨TState.RUNNING, last2⟩, mouthCmds, [(cfg.eyes_min, 1/5)])

end TeddyStateMachine

/-- Claim C8: a tick transitions into `SLEEP` only when both
`(now − last_vocal_ts) > idle_timeout_s` and `|eyes.angle − eyes.max_angle| ≤ 3`
hold at that tick (with `last_vocal_ts` as updated by the tick); and on any
tick with `(now − last_vocal_ts) ≤ idle_timeout_s` the eyes are commanded to
`min_angle` over `0.2 s` and the state is `RUNNING` (waking from `SLEEP`). -/
theorem sleep_entry_conditions (cfg : SMCfg) (m : SMState) (vocal_now : Bool)
    (now : ℚ) (eyesAngle : ℤ) :
    ((TeddyStateMachine.tick cfg m vocal_now now eyesAngle).1.state =
        TState.SLEEP ∧ m.state ≠ TState.SLEEP →
      (now - (TeddyStateMachine.tick cfg m vocal_now now
        eyesAngle).1.last_vocal_ts > cfg.idle_timeout ∧
       |eyesAngle - cfg.eyes_max| ≤ 3)) ∧
    (now - (TeddyStateMachine.tick cfg m vocal_now now
        eyesAngle).1.last_vocal_ts ≤ cfg.idle_timeout →
      ((TeddyStateMachine.tick cfg m vocal_now now eyesAngle).2.2 =
        [(cfg.eyes_min, 1/5)] ∧
       (TeddyStateMachine.tick cfg m vocal_now now eyesAngle).1.state =
        TState.RUNNING)) := by
  unfold TeddyStateMachine.tick
  dsimp only
  set last2 := if vocal_now then now else m.last_vocal_ts with hlast2
  by_cases hidle : now - last2 > cfg.idle_timeout
  · rw [if_pos hidle]
    dsimp only
    by_cases heyes : |eyesAngle - cfg.eyes_max| ≤ 3
    · rw [if_pos heyes]
      exact ⟨fun _ => ⟨hidle, heyes⟩, fun hle => absurd hidle (not_lt.mpr hle)⟩
    · rw [if_neg heyes]
      exact ⟨fun h => absurd h.1 h.2, fun hle => absurd hidle (not_lt.mpr hle)⟩
  · rw [if_neg hidle]
    dsimp only
    refine ⟨fun h => absurd h.1 (by simp), fun _ => ⟨rfl, rfl⟩⟩

/-- Claim C8 witness: an idle tick with closed eyes enters `SLEEP`; a vocal
tick keeps the eyes open and the state `RUNNING`. -/
theorem sleep_entry_conditions_witness :
    (((TeddyStateMachine.tick ⟨20, 120, 10, 90, 160, 10, 5/2⟩
        ⟨TState.RUNNING, 0⟩ false 100 90).1.state = TState.SLEEP ∧
      (⟨TState.RUNNING, 0⟩ : SMState).state ≠ TState.SLEEP) ∧
     (100 - (TeddyStateMachine.tick ⟨20, 120, 10, 90, 160, 10, 5/2⟩
        ⟨TState.RUNNING, 0⟩ false 100 90).1.last_vocal_ts >
        (⟨20, 120, 10, 90, 160, 10, 5/2⟩ : SMCfg).idle_timeout ∧
      |(90 : ℤ) - (⟨20, 120, 10, 90, 160, 10, 5/2⟩ : SMCfg).eyes_max| ≤ 3)) ∧
    ((100 : ℚ) - (TeddyStateMachine.tick ⟨20, 120, 10, 90, 160, 10, 5/2⟩
        ⟨TState.SLEEP, 0⟩ true 100 90).1.last_vocal_ts ≤
        (⟨20, 120, 10, 90, 160, 10, 5/2⟩ : SMCfg).idle_timeout ∧
     ((TeddyStateMachine.tick ⟨20, 120, 10, 90, 160, 10, 5/2⟩
        ⟨TState.SLEEP, 0⟩ true 100 90).2.2 =
        [((⟨20, 120, 10, 90, 160, 10, 5/2⟩ : SMCfg).eyes_min, 1/5)] ∧
      (TeddyStateMachine.tick ⟨20, 120, 10, 90, 160, 10, 5/2⟩
        ⟨TState.SLEEP, 0⟩ true 100 90).1.state = TState.RUNNING)) := by
  have hsleep : (TeddyStateMachine.tick ⟨20, 120, 10, 90, 160, 10, 5/2⟩
      ⟨TState.RUNNING, 0⟩ false 100 90).1.state = TState.SLEEP ∧
      (⟨TState.RUNNING, 0⟩ : SMState).state ≠ TState.SLEEP := by
    constructor
    · show (TeddyStateMachine.tick _ _ _ _ _).1.state = TState.SLEEP
      unfold TeddyStateMachine.tick
      rw [if_neg (Bool.false_ne_true), if_pos (by norm_num : (100:ℚ) - 0 > 10)]
      rw [if_pos (by decide : |(90 : ℤ) - 90| ≤ 3)]
    · simp
  have hts : (100 : ℚ) - (TeddyStateMachine.tick ⟨20, 120, 10, 90, 160, 10, 5/2⟩
      ⟨TState.SLEEP, 0⟩ true 100 90).1.last_vocal_ts ≤ 10 := by
    have : (TeddyStateMachine.tick ⟨20, 120, 10, 90, 160, 10, 5/2⟩
        ⟨TState.SLEEP, 0⟩ true 100 90).1.last_vocal_ts = 100 := by
      unfold TeddyStateMachine.tick
      rw [if_pos rfl, if_neg (by norm_num : ¬ ((100:ℚ) - 100 > 10))]
    rw [this]
    norm_num
  exact ⟨⟨hsleep, (sleep_entry_conditions _ _ false 100 90).1 hsleep⟩,
    ⟨hts, (sleep_entry_conditions _ _ true 100 90).2 hts⟩⟩
